import Mathlib

/-!
Verification of the pqt generation engine (repository karthikraobr/pqt).

The development shallowly embeds the two source files of the repository:

* src/pqtsql/generator.go — the DDL emitter (namespace Pqtsql below);
* src/internal/gogen/gen_general.go — the source emitter pieces the claims
  mention (namespace Gogen and GenCode below).

The pqt schema-model package (pqt.Schema, pqt.Table, pqt.Column,
pqt.Constraint, pqt.Relationship, pqt.Function and their helper methods
JoinColumns, Columns.String, Constraint.Name, Table.FullName, CountOf,
DefaultOn) is not part of the repository sources provided; those parts are
modelled from the specification, as marked on each definition.

Go slices of pointers are modelled as lists of Option values, Go string
building into a bytes.Buffer is modelled as pure string concatenation in
emission order, Go error returns are modelled with Except, and the float64
Version configuration value is modelled as a rational number (the single
comparison the code performs is against 9.5, which is exactly representable,
so the gate behaves identically for the configuration values of interest).
-/

namespace Pqt

/-- Referential action of a foreign key (pqt constants Cascade, Restrict,
SetNull, SetDefault; the zero value means no action is set). Modelled from
the spec: OnDelete and OnUpdate are one of Cascade, Restrict, SetNull,
SetDefault, or none. -/
inductive RefAction where
  | noAction
  | cascade
  | restrict
  | setNull
  | setDefault
deriving DecidableEq, Repr

/-- Constraint type tag. Modelled from the spec: the known enumerated set is
PrimaryKey, Unique, ForeignKey, Check, Index, UniqueIndex, Exclusion; the
unknown constructor models any other value of the underlying Go string type. -/
inductive ConstraintType where
  | primaryKey
  | unique
  | foreignKey
  | check
  | index
  | uniqueIndex
  | exclusion
  | unknown (tag : String)
deriving DecidableEq, Repr

/-- Modelled from the spec: the textual value of the Go constraint-type
string constant, used in error messages and as the deterministic name
suffix. The exact strings are taken from the conventional PostgreSQL
suffixes the spec alludes to; no claim depends on the particular values. -/
def ConstraintType.str : ConstraintType → String
  | .primaryKey => "pkey"
  | .unique => "key"
  | .foreignKey => "fkey"
  | .check => "check"
  | .index => "idx"
  | .uniqueIndex => "ukey"
  | .exclusion => "excl"
  | .unknown tag => tag

/-- True exactly on the unknown constructor. -/
def ConstraintType.isUnknown : ConstraintType → Bool
  | .unknown _ => true
  | _ => false

/-- Lightweight reference to a table, carrying what the emitters read from a
pqt.Table pointer target: its name and its owning schema name (Go code reads
only Schema.Name through the back-reference). -/
structure TableRef where
  schemaName : Option String
  name : String
deriving DecidableEq, Repr

/-- Modelled from the spec: pqt.Table.FullName (pqt package missing from
src/) renders the schema-qualified table name, or the bare name when the
table has no owning schema. -/
def TableRef.FullName (t : TableRef) : String :=
  match t.schemaName with
  | some sn => sn ++ "." ++ t.name
  | none => t.name

/-- A column of a table. The semantic Type of a pqt column is kept as its
textual SQL representation sqlType (modelling c.Type.String()) together with
its default-mode source representation goTypeDefault (modelling
columnType(c, ModeDefault), see Gogen.columnType below). defaultInsert
models c.DefaultOn(pqt.EventInsert): Modelled from the spec, per-event
default expressions keyed by event, of which the emitters use only the
insert event. -/
structure Column where
  name : String
  sqlType : String
  collate : String
  defaultInsert : Option String
  notNull : Bool
  isDynamic : Bool
  goTypeDefault : String
deriving DecidableEq, Repr

/-- A constraint. primaryColumns and columns are the ordered column-name
lists of the local and the referenced side (pqt stores column pointers; the
emitters read only the names, via JoinColumns and Columns.String). table is
the referenced table of a foreign key (nil possible), primaryTable the
owning table reference. -/
structure Constraint where
  ctype : ConstraintType
  primaryTable : TableRef
  primaryColumns : List String
  columns : List String
  table : Option TableRef
  check : String
  Where : String
  onDelete : RefAction
  onUpdate : RefAction
deriving DecidableEq, Repr

/-- Modelled from the spec: pqt.JoinColumns (pqt package missing from src/)
joins the names of a column list with a separator. -/
def JoinColumns (cols : List String) (sep : String) : String :=
  String.intercalate sep cols

/-- Modelled from the spec: the String method of pqt.Columns (pqt package
missing from src/) joins the column names with a comma and a space. -/
def ColumnsString (cols : List String) : String :=
  String.intercalate ", " cols

/-- Modelled from the spec: pqt.Constraint.Name (pqt package missing from
src/) derives the constraint name deterministically from the owning table,
the ordered column list and a type suffix; it is never stored. -/
def Constraint.name (c : Constraint) : String :=
  c.primaryTable.name ++ "_" ++ String.intercalate "_" c.primaryColumns ++ "_" ++ c.ctype.str

/-- Relationship kind. -/
inductive RelationshipType where
  | oneToOne
  | oneToMany
  | manyToOne
  | manyToMany
deriving DecidableEq, Repr

/-- A relationship. ownerName and inversedName are the optional explicit
override names (the empty string meaning unset, as in Go); ownerColumns are
the foreign-key columns held on the owner side; ownerForeignKey is the
synthesized foreign-key constraint of a multi-column owned relationship
(nil possible). -/
structure Relationship where
  rtype : RelationshipType
  ownerName : String
  inversedName : String
  ownerTable : TableRef
  inversedTable : TableRef
  ownerColumns : List String
  ownerForeignKey : Option Constraint
deriving DecidableEq, Repr

/-- Function argument: name plus the textual form of its type. -/
structure Arg where
  name : String
  argType : String
deriving DecidableEq, Repr

/-- Function volatility category; default is the unspecified zero value. -/
inductive FunctionBehaviour where
  | default
  | volatile
  | immutable
  | stable
deriving DecidableEq, Repr

/-- A SQL function of the schema. ftype models f.Type.String(). -/
structure Function where
  name : String
  args : List Arg
  ftype : String
  body : String
  behaviour : FunctionBehaviour
deriving DecidableEq, Repr

/-- A table. schema models the Schema back-reference: Go code tests it
against nil and reads only its Name, so it is kept as an optional schema
name. The three relationship lists mirror pqt.Table. -/
structure Table where
  name : String
  schema : Option String
  temporary : Bool
  ifNotExists : Bool
  columns : List Column
  constraints : List Constraint
  ownedRelationships : List Relationship
  inversedRelationships : List Relationship
  manyToManyRelationships : List Relationship
deriving DecidableEq, Repr

/-- A schema. The table and function lists are lists of optional values,
modelling Go slices of pointers whose entries may be nil. -/
structure Schema where
  name : String
  ifNotExists : Bool
  functions : List (Option Function)
  tables : List (Option Table)
deriving DecidableEq, Repr

/-- Modelled from the spec: pqt.Constraints.CountOf (pqt package missing
from src/) counts the constraints whose type is among the given types. -/
def CountOf (cs : List Constraint) (ts : List ConstraintType) : Nat :=
  (cs.filter (fun c => decide (c.ctype ∈ ts))).length

end Pqt

namespace Pqtsql

open Pqt

/-- Errors returned by the DDL emitter. Each constructor stands for one of
the descriptive error values produced in src/pqtsql/generator.go; nilTable
models the runtime abort (nil-pointer dereference) that the table loop of
generate hits when a table entry is nil, since it then ranges over
t.Constraints of the nil pointer. -/
inductive GenErr where
  | missingFunctionName
  | missingTableName
  | noColumns (tableName : String)
  | fkNoColumn
  | fkNoReferenceColumn
  | fkNoReferenceTable
  | unknownConstraintType (tag : String)
  | nilTable
deriving DecidableEq, Repr

/-- Embeds uniqueConstraintQuery (generator.go line 225). -/
def uniqueConstraintQuery (c : Constraint) : String :=
  "CONSTRAINT \"" ++ c.name ++ "\" UNIQUE (" ++ JoinColumns c.primaryColumns ", " ++ ")"

/-- Embeds primaryKeyConstraintQuery (generator.go line 229). -/
def primaryKeyConstraintQuery (c : Constraint) : String :=
  "CONSTRAINT \"" ++ c.name ++ "\" PRIMARY KEY (" ++ JoinColumns c.primaryColumns ", " ++ ")"

/-- Embeds checkConstraintQuery (generator.go line 275). -/
def checkConstraintQuery (c : Constraint) : String :=
  "CONSTRAINT \"" ++ c.name ++ "\" CHECK (" ++ c.check ++ ")"

/-- Embeds the ON DELETE switch of foreignKeyConstraintQuery
(generator.go lines 250-259): nothing is appended when no action is set. -/
def onDeleteText : RefAction → String
  | .cascade => " ON DELETE CASCADE"
  | .restrict => " ON DELETE RESTRICT"
  | .setNull => " ON DELETE SET NULL"
  | .setDefault => " ON DELETE SET DEFAULT"
  | .noAction => ""

/-- Embeds the ON UPDATE switch of foreignKeyConstraintQuery
(generator.go lines 261-270). -/
def onUpdateText : RefAction → String
  | .cascade => " ON UPDATE CASCADE"
  | .restrict => " ON UPDATE RESTRICT"
  | .setNull => " ON UPDATE SET NULL"
  | .setDefault => " ON UPDATE SET DEFAULT"
  | .noAction => ""

/-- Embeds foreignKeyConstraintQuery (generator.go lines 233-273): guards
for an empty local column list, an empty referenced column list and a
missing referenced table, then the CONSTRAINT text with the optional
action clauses. -/
def foreignKeyConstraintQuery (c : Constraint) : Except GenErr String :=
  if c.primaryColumns.length = 0 then .error .fkNoColumn
  else if c.columns.length = 0 then .error .fkNoReferenceColumn
  else
    match c.table with
    | none => .error .fkNoReferenceTable
    | some rt =>
      .ok ("CONSTRAINT \"" ++ c.name ++ "\" FOREIGN KEY (" ++ JoinColumns c.primaryColumns ", "
        ++ ") REFERENCES " ++ rt.FullName ++ " (" ++ JoinColumns c.columns ", " ++ ")"
        ++ onDeleteText c.onDelete ++ onUpdateText c.onUpdate)

/-- Embeds generateConstraint (generator.go lines 206-223): the Index and
UniqueIndex cases append nothing; Exclusion and any unknown tag fall to the
default case and produce the unknown-constraint-type error. -/
def generateConstraint (c : Constraint) : Except GenErr String :=
  match c.ctype with
  | .unique => .ok (uniqueConstraintQuery c)
  | .primaryKey => .ok (primaryKeyConstraintQuery c)
  | .foreignKey => foreignKeyConstraintQuery c
  | .check => .ok (checkConstraintQuery c)
  | .index => .ok ""
  | .uniqueIndex => .ok ""
  | .exclusion => .error (.unknownConstraintType ConstraintType.exclusion.str)
  | .unknown tag => .error (.unknownConstraintType (ConstraintType.unknown tag).str)

/-- The version threshold 9.5 of the source, written as the explicit
rational 19/2: the decimal literal notation for the rationals is
irreducible and would block evaluation of the emitter on concrete inputs.
The theorem c3_version_gating relates this constant to the literal 9.5. -/
def ver95 : ℚ := mkRat 19 2

/-- Embeds indexConstraintQuery (generator.go lines 279-287): the IF NOT
EXISTS guard is included exactly when the configured version is at least
9.5; Fprintln appends the final newline. -/
def indexConstraintQuery (c : Constraint) (ver : ℚ) : String :=
  (if ver ≥ ver95 then
    "CREATE INDEX IF NOT EXISTS \"" ++ c.name ++ "\" ON " ++ c.primaryTable.FullName
      ++ " (" ++ ColumnsString c.primaryColumns ++ ");"
  else
    "CREATE INDEX \"" ++ c.name ++ "\" ON " ++ c.primaryTable.FullName
      ++ " (" ++ ColumnsString c.primaryColumns ++ ");")
  ++ "\n"

/-- Embeds uniqueIndexConstraintQuery (generator.go lines 289-300): version
gate as for plain indexes, then the optional WHERE clause for a non-empty
partial-index predicate, then the terminating semicolon and newline. -/
def uniqueIndexConstraintQuery (c : Constraint) (ver : ℚ) : String :=
  (if ver ≥ ver95 then
    "CREATE UNIQUE INDEX IF NOT EXISTS \"" ++ c.name ++ "\" ON " ++ c.primaryTable.FullName
      ++ " (" ++ ColumnsString c.primaryColumns ++ ")"
  else
    "CREATE UNIQUE INDEX \"" ++ c.name ++ "\" ON " ++ c.primaryTable.FullName
      ++ " (" ++ ColumnsString c.primaryColumns ++ ")")
  ++ (if c.Where ≠ "" then " WHERE " ++ c.Where else "")
  ++ ";\n"

/-- Embeds the argument loop of generateCreateFunction (generator.go lines
82-89): a comma-space separator before every argument but the first, each
argument rendered as its name, a space, its type. The index argument mirrors
the loop counter. -/
def argsText : Nat → List Arg → String
  | _, [] => ""
  | i, a :: rest =>
    (if i ≠ 0 then ", " else "") ++ a.name ++ " " ++ a.argType ++ argsText (i + 1) rest

/-- Embeds the volatility switch of generateCreateFunction (generator.go
lines 95-102). -/
def behaviourText : FunctionBehaviour → String
  | .volatile => "\n\tVOLATILE"
  | .immutable => "\n\tIMMUTABLE"
  | .stable => "\n\tSTABLE"
  | .default => ""

/-- Embeds generateCreateFunction (generator.go lines 71-106): nil input
succeeds without text, a missing name is an error, otherwise the CREATE OR
REPLACE FUNCTION block is appended. -/
def generateCreateFunction : Option Function → Except GenErr String
  | none => .ok ""
  | some f =>
    if f.name = "" then .error .missingFunctionName
    else
      .ok ("CREATE OR REPLACE FUNCTION " ++ f.name ++ "(" ++ argsText 0 f.args
        ++ ") RETURNS " ++ f.ftype ++ "\n\tAS '" ++ f.body ++ "'\n\tLANGUAGE SQL"
        ++ behaviourText f.behaviour ++ ";\n\n")

/-- Embeds the owned-relationship loop of generateCreateTable (generator.go
lines 137-146): a relationship whose owner-column count is exactly one is
skipped; otherwise its synthesized foreign key, when present, is appended to
the working constraint list. -/
def appendRelationshipFKs (cs : List Constraint) : List Relationship → List Constraint
  | [] => cs
  | r :: rest =>
    if r.ownerColumns.length = 1 then appendRelationshipFKs cs rest
    else
      match r.ownerForeignKey with
      | some fk => appendRelationshipFKs (cs ++ [fk]) rest
      | none => appendRelationshipFKs cs rest

/-- Embeds one column line of generateCreateTable (generator.go lines
158-177), with the trailing comma decided by the caller. -/
def columnLine (c : Column) (comma : Bool) : String :=
  "\t" ++ c.name ++ " " ++ c.sqlType
  ++ (if c.collate ≠ "" then " " ++ c.collate else "")
  ++ (match c.defaultInsert with
      | some d => " DEFAULT " ++ d
      | none => "")
  ++ (if c.notNull then " NOT NULL" else "")
  ++ (if comma then "," else "")
  ++ "\n"

/-- Embeds the column loop of generateCreateTable (generator.go lines
154-178): dynamic columns are skipped, and the comma test compares the
declared index of the column against the length of the full declared column
list (allLen), or passes when at least one inline constraint is counted. -/
def columnsText (allLen nb : Nat) : Nat → List Column → String
  | _, [] => ""
  | i, c :: rest =>
    (if c.isDynamic then "" else columnLine c (i < allLen - 1 ∨ 0 < nb))
      ++ columnsText allLen nb (i + 1) rest

/-- Embeds the inline-constraint loop of generateCreateTable (generator.go
lines 184-199): Index and UniqueIndex constraints are skipped without
advancing the emitted counter, every other constraint is rendered on its own
tab-indented line, with a comma after each but the last counted one. -/
def constraintsText (nb : Nat) : Nat → List Constraint → Except GenErr String
  | _, [] => .ok ""
  | i, c :: rest =>
    if c.ctype = .index ∨ c.ctype = .uniqueIndex then constraintsText nb i rest
    else
      match generateConstraint c with
      | .error e => .error e
      | .ok txt =>
        match constraintsText nb (i + 1) rest with
        | .error e => .error e
        | .ok tail => .ok ("\t" ++ txt ++ (if i < nb - 1 then "," else "") ++ "\n" ++ tail)

/-- Embeds generateCreateTable (generator.go lines 108-204): nil input
succeeds without text; a missing name or an empty column list is an error;
otherwise the CREATE TABLE header, the column lines, a separating blank line
when inline constraints are counted, the inline constraint lines over the
working constraint list, and the closing parenthesis. -/
def generateCreateTable : Option Table → Except GenErr String
  | none => .ok ""
  | some t =>
    if t.name = "" then .error .missingTableName
    else if t.columns.length = 0 then .error (.noColumns t.name)
    else
      let constraints := appendRelationshipFKs t.constraints t.ownedRelationships
      let nb := CountOf constraints
        [.primaryKey, .check, .unique, .foreignKey, .exclusion]
      match constraintsText nb 0 constraints with
      | .error e => .error e
      | .ok ctext =>
        .ok ("CREATE " ++ (if t.temporary then "TEMPORARY " else "") ++ "TABLE "
          ++ (if t.ifNotExists then "IF NOT EXISTS " else "")
          ++ (match t.schema with
              | some sn => sn ++ "." ++ t.name
              | none => t.name)
          ++ " (\n"
          ++ columnsText t.columns.length nb 0 t.columns
          ++ (if 0 < nb then "\n" else "")
          ++ ctext
          ++ ");\n")

/-- Embeds the standalone-index loop of generate (generator.go lines 57-64):
for each declared constraint of the table, in order, an Index or UniqueIndex
constraint contributes its standalone statement. -/
def indexStatements (ver : ℚ) : List Constraint → String
  | [] => ""
  | c :: rest =>
    (match c.ctype with
     | .index => indexConstraintQuery c ver
     | .uniqueIndex => uniqueIndexConstraintQuery c ver
     | _ => "")
      ++ indexStatements ver rest

/-- Embeds the function loop of generate (generator.go lines 48-52),
threading the emitted text and aborting on the first error. -/
def genFunctions : List (Option Function) → Except GenErr String
  | [] => .ok ""
  | f :: fs =>
    match generateCreateFunction f with
    | .error e => .error e
    | .ok t =>
      match genFunctions fs with
      | .error e => .error e
      | .ok rest => .ok (t ++ rest)

/-- Embeds the table loop of generate (generator.go lines 53-66): the table
block, then that table's standalone index statements over its declared
constraints, then a blank separator line. A nil table entry passes the
generateCreateTable nil check but the loop then ranges over the constraints
of the nil pointer, which aborts the run (modelled as the nilTable error). -/
def genTables (ver : ℚ) : List (Option Table) → Except GenErr String
  | [] => .ok ""
  | ot :: rest =>
    match generateCreateTable ot with
    | .error e => .error e
    | .ok ttext =>
      match ot with
      | none => .error .nilTable
      | some t =>
        match genTables ver rest with
        | .error e => .error e
        | .ok tail => .ok (ttext ++ indexStatements ver t.constraints ++ "\n" ++ tail)

/-- Embeds generate (generator.go lines 39-69): the fixed banner, the
optional CREATE SCHEMA statement for a non-empty schema name with its
optional IF NOT EXISTS clause, the function blocks, the table blocks. -/
def generate (ver : ℚ) (s : Schema) : Except GenErr String :=
  match genFunctions s.functions with
  | .error e => .error e
  | .ok fs =>
    match genTables ver s.tables with
    | .error e => .error e
    | .ok ts =>
      .ok ("-- do not modify, generated by pqt\n\n"
        ++ (if s.name ≠ "" then
              "CREATE SCHEMA " ++ (if s.ifNotExists then "IF NOT EXISTS " else "")
                ++ s.name ++ "; \n\n"
            else "")
        ++ fs ++ ts)

/-- Embeds Generate (generator.go lines 19-26): the byte output of a
successful run, and no output at all on failure. -/
def Generate (ver : ℚ) (s : Schema) : Option String :=
  (generate ver s).toOption

/-! Claim-facing description of the DDL output, assembled compositionally
the way the specification narrates it: a list of per-item blocks joined in
declaration order. The refinement theorem for claim C1 shows the
buffer-threading generate above produces exactly this assembly. -/

/-- Concatenation of a list of emitted blocks, in order. -/
def joinAll : List String → String
  | [] => ""
  | s :: rest => s ++ joinAll rest

/-- Effectful map over a list that fails as soon as one element fails. -/
def mapOpt (f : α → Option β) : List α → Option (List β)
  | [] => some []
  | a :: l =>
    match f a with
    | none => none
    | some b =>
      match mapOpt f l with
      | none => none
      | some bs => some (b :: bs)

/-- The emitted block of one function entry, none when emission fails. -/
def functionBlock (f : Option Function) : Option String :=
  (generateCreateFunction f).toOption

/-- The emitted block of one table entry per the claim: the CREATE TABLE
block, immediately followed by the standalone index statements of the
declared Index and UniqueIndex constraints in declaration order, then a
blank separator line. A nil entry yields no block (the run aborts). -/
def tableBlock (ver : ℚ) : Option Table → Option String
  | none => none
  | some t =>
    match generateCreateTable (some t) with
    | .error _ => none
    | .ok txt => some (txt ++ indexStatements ver t.constraints ++ "\n")

/-- The claimed overall DDL output: the fixed banner; the CREATE SCHEMA
statement exactly when the schema name is non-empty, with IF NOT EXISTS
exactly when the flag is set; the function blocks in declaration order;
the table blocks in declaration order. -/
def specOrderedOutput (ver : ℚ) (s : Schema) : Option String :=
  match mapOpt functionBlock s.functions, mapOpt (tableBlock ver) s.tables with
  | some fb, some tb =>
    some ("-- do not modify, generated by pqt\n\n"
      ++ (if s.name ≠ "" then
            "CREATE SCHEMA " ++ (if s.ifNotExists then "IF NOT EXISTS " else "")
              ++ s.name ++ "; \n\n"
          else "")
      ++ joinAll fb ++ joinAll tb)
  | _, _ => none

end Pqtsql

namespace Gogen

open Pqt

/-- The field descriptor produced for one entity struct field
(gen_general.go: structField, of which Entity reads Name, Type, Tags and
ReadOnly). -/
structure structField where
  name : String
  typeStr : String
  tags : String := ""
  readOnly : Bool := false
deriving DecidableEq, Repr

/-- Modelled from the spec: formatter.Public of the internal formatter
package (missing from src/) renders an exported identifier for a field
name; modelled as capitalising the first letter. No claim depends on the
particular rendering, only on which name is chosen before rendering. -/
def Public (s : String) : String := s.capitalize

/-- Modelled from the spec: the gogen helper named or (missing from src/)
picks the explicit override name when it is provided (non-empty) and the
default otherwise. -/
def orName (override dflt : String) : String :=
  if override = "" then dflt else override

/-- Modelled from the spec: Generator.columnType (missing from src/)
renders the source-language representation of a column type in a given
mode; the default-mode representation is carried on the modelled column,
and a column type with no representation in the mode renders as the
literal text the caller compares against. -/
def columnType (c : Column) : String := c.goTypeDefault

/-- Embeds entityPropertiesGenerator (gen_general.go lines 383-432). The
channel-fed producer goroutine sends, in order: one field per column whose
default-mode type representation is meaningful; then the owned
relationships; then the inversed relationships; then the many-to-many
relationships. The one-shot single-consumer channel is modelled as the
eagerly materialised list of the values sent (spec section 5 states the
two are behaviourally identical; see chanRun for the schedule-independence
argument). -/
def entityPropertiesGenerator (t : Table) : List structField :=
  (t.columns.filterMap fun c =>
    if columnType c ≠ "<nil>" then
      some { name := Public c.name, typeStr := columnType c, readOnly := c.isDynamic }
    else none)
  ++ (t.ownedRelationships.filterMap fun r =>
    match r.rtype with
    | .oneToMany =>
      some { name := Public (orName r.inversedName (r.inversedTable.name ++ "s")),
             typeStr := "[]*" ++ Public r.inversedTable.name ++ "Entity" }
    | .oneToOne =>
      some { name := Public (orName r.inversedName r.inversedTable.name),
             typeStr := "*" ++ Public r.inversedTable.name ++ "Entity" }
    | .manyToOne =>
      some { name := Public (orName r.inversedName r.inversedTable.name),
             typeStr := "*" ++ Public r.inversedTable.name ++ "Entity" }
    | .manyToMany => none)
  ++ (t.inversedRelationships.filterMap fun r =>
    match r.rtype with
    | .oneToMany =>
      some { name := Public (orName r.ownerName r.ownerTable.name),
             typeStr := "*" ++ Public r.ownerTable.name ++ "Entity" }
    | .oneToOne =>
      some { name := Public (orName r.ownerName r.ownerTable.name),
             typeStr := "*" ++ Public r.ownerTable.name ++ "Entity" }
    | .manyToOne =>
      some { name := Public (orName r.ownerName (r.ownerTable.name ++ "s")),
             typeStr := "[]*" ++ Public r.ownerTable.name ++ "Entity" }
    | .manyToMany => none)
  ++ (t.manyToManyRelationships.filterMap fun r =>
    if r.rtype ≠ .manyToMany then none
    else if r.ownerTable.name = t.name then
      some { name := Public (orName r.inversedName (r.inversedTable.name ++ "s")),
             typeStr := "[]*" ++ Public r.inversedTable.name ++ "Entity" }
    else if r.inversedTable.name = t.name then
      some { name := Public (orName r.ownerName (r.ownerTable.name ++ "s")),
             typeStr := "[]*" ++ Public r.ownerTable.name ++ "Entity" }
    else none)

/-- Small-step semantics of the one-shot unbuffered channel between the
producer goroutine of entityPropertiesGenerator and the consuming range
loop: pend holds the values the producer has still to send, acc the values
received so far (most recent first). A schedule entry true lets the next
rendezvous complete; false is a scheduling stall in which nothing is
handed over. When the producer has sent everything it closes the channel
and the range loop terminates with the received sequence; a schedule that
ends earlier has not completed the run (none). -/
def chanRun : List Bool → List structField → List structField → Option (List structField)
  | _, [], acc => some acc.reverse
  | [], _ :: _, _ => none
  | true :: sch, x :: pend, acc => chanRun sch pend (x :: acc)
  | false :: sch, pend, acc => chanRun sch pend acc

/-- Claim-facing description of one relationship-derived entity field: the
override name replaces the default name taken from the other table, the
collection suffix s is appended for collection-valued fields, and the
rendered type is a slice of entity references for collections and a single
entity reference otherwise. -/
def relationshipField (override otherTable : String) (collection : Bool) : structField :=
  { name := Public (orName override (if collection then otherTable ++ "s" else otherTable)),
    typeStr := (if collection then "[]*" else "*") ++ Public otherTable ++ "Entity" }

/-- Claim-facing field of one column: present exactly when the column type
has a meaningful default-mode representation; read-only for dynamic
columns. -/
def columnFieldSpec (c : Column) : Option structField :=
  if columnType c ≠ "<nil>" then
    some { name := Public c.name, typeStr := columnType c, readOnly := c.isDynamic }
  else none

/-- Claim-facing field of an owned relationship: OneToMany is
collection-valued, OneToOne and ManyToOne are single-valued, all named
after the inversed table with the InversedName override. -/
def ownedFieldSpec (r : Relationship) : Option structField :=
  match r.rtype with
  | .oneToMany => some (relationshipField r.inversedName r.inversedTable.name true)
  | .oneToOne => some (relationshipField r.inversedName r.inversedTable.name false)
  | .manyToOne => some (relationshipField r.inversedName r.inversedTable.name false)
  | .manyToMany => none

/-- Claim-facing field of an inversed relationship: the single side of a
OneToMany and a OneToOne are single-valued, an inversed ManyToOne is
collection-valued, all named after the owner table with the OwnerName
override. -/
def inversedFieldSpec (r : Relationship) : Option structField :=
  match r.rtype with
  | .oneToMany => some (relationshipField r.ownerName r.ownerTable.name false)
  | .oneToOne => some (relationshipField r.ownerName r.ownerTable.name false)
  | .manyToOne => some (relationshipField r.ownerName r.ownerTable.name true)
  | .manyToMany => none

/-- Claim-facing field of a many-to-many relationship seen from table t:
collection-valued, named after the other side, selected by identity of the
owner or inversed table with t. -/
def manyToManyFieldSpec (t : Table) (r : Relationship) : Option structField :=
  if r.rtype ≠ .manyToMany then none
  else if r.ownerTable.name = t.name then
    some (relationshipField r.inversedName r.inversedTable.name true)
  else if r.inversedTable.name = t.name then
    some (relationshipField r.ownerName r.ownerTable.name true)
  else none

/-- The claimed entity field sequence: column fields in declared order,
then owned, then inversed, then many-to-many relationship fields, each
group in schema order. -/
def entityFieldsSpec (t : Table) : List structField :=
  t.columns.filterMap columnFieldSpec
  ++ t.ownedRelationships.filterMap ownedFieldSpec
  ++ t.inversedRelationships.filterMap inversedFieldSpec
  ++ t.manyToManyRelationships.filterMap (manyToManyFieldSpec t)

end Gogen

namespace GenCode

/-!
Semantics of the criteria-combinator constructor emitted by
Gogen.Generator.Operand (gen_general.go lines 100-133). The emitted Go
function receives an operator string and a variadic list of pointers to
criteria nodes; it allocates a combinator node whose child is the first
operand, then iterates over the operands linking operand i to operand i+1
through the sibling pointer (for all but the last operand) and setting
every operand's parent pointer to the new node. The pointer graph is
modelled as a store: a list of nodes addressed by index, allocation
appending at the end.
-/

/-- A criteria node of the generated code: the per-column filter operands
are irrelevant to the linking behaviour and are omitted; operator, child,
sibling and parent mirror the generated struct fields. -/
structure CriteriaNode where
  operator : String
  child : Option Nat := none
  sibling : Option Nat := none
  parent : Option Nat := none
deriving DecidableEq, Repr

/-- A store of allocated criteria nodes, addressed by list index. -/
abbrev CStore := List CriteriaNode

/-- Applies f to the node at index i; out-of-range writes are lost. -/
def modifyAt : CStore → Nat → (CriteriaNode → CriteriaNode) → CStore
  | [], _, _ => []
  | n :: rest, 0, f => f n :: rest
  | n :: rest, i + 1, f => n :: modifyAt rest i f

/-- The assignment operands[i].sibling = v of the emitted code. -/
def setSibling (s : CStore) (i : Nat) (v : Option Nat) : CStore :=
  modifyAt s i (fun n => { n with sibling := v })

/-- The assignment operands[i].parent = v of the emitted code. -/
def setParent (s : CStore) (i : Nat) (v : Option Nat) : CStore :=
  modifyAt s i (fun n => { n with parent := v })

/-- The indexed loop of the emitted constructor: for each operand in turn,
when a successor operand exists its index is written into the sibling
pointer, and the parent pointer is set to the combinator node p. -/
def linkLoop (p : Nat) : CStore → List Nat → CStore
  | s, [] => s
  | s, [i] => setParent s i (some p)
  | s, i :: j :: rest => linkLoop p (setParent (setSibling s i (some j)) i (some p)) (j :: rest)

/-- The emitted constructor: with no operands it allocates a bare node
holding only the operator; otherwise it allocates the combinator with
child pointing at the first operand and runs the linking loop. Returns the
updated store and the index of the new node. -/
def Operand (operator : String) (operands : List Nat) (s : CStore) : CStore × Nat :=
  match operands with
  | [] => (s ++ [{ operator := operator }], s.length)
  | o :: _ => (linkLoop s.length (s ++ [{ operator := operator, child := some o }]) operands, s.length)

/-- The node stored at index i (a blank node for an out-of-range index;
all uses are guarded by bounds hypotheses). -/
def nodeAt (s : CStore) (i : Nat) : CriteriaNode :=
  (s.get? i).getD { operator := "" }

/-- The claimed behaviour of the emitted constructor on a store s with
operand indices ops: writing s1 and p for the resulting store and node
index, the new node holds the operator, its child is the first operand,
each operand's sibling is the next operand, the last operand's sibling is
left unset, and every operand's parent is the new node. -/
def OperandSpec (operator : String) (ops : List Nat) (s : CStore) : Prop :=
  (nodeAt (Operand operator ops s).1 (Operand operator ops s).2
      = { operator := operator, child := ops.head?, sibling := none, parent := none })
  ∧ (∀ k (h1 : k < ops.length) (h2 : k + 1 < ops.length),
      (nodeAt (Operand operator ops s).1 (ops.get ⟨k, h1⟩)).sibling = some (ops.get ⟨k + 1, h2⟩))
  ∧ (∀ h : ops ≠ [], (nodeAt (Operand operator ops s).1 (ops.getLast h)).sibling = none)
  ∧ (∀ o ∈ ops, (nodeAt (Operand operator ops s).1 o).parent = some (Operand operator ops s).2)

end GenCode

namespace Inputs

open Pqt Pqtsql Gogen GenCode

/-- An ordinary physical integer column. -/
def colA : Column :=
  { name := "a", sqlType := "INTEGER", collate := "", defaultInsert := none,
    notNull := true, isDynamic := false, goTypeDefault := "int32" }

/-- A dynamic (computed) text column. -/
def colBDyn : Column :=
  { name := "b", sqlType := "TEXT", collate := "", defaultInsert := none,
    notNull := false, isDynamic := true, goTypeDefault := "string" }

/-- A plain table named t inside schema s, with the single column a. -/
def tblPlain : Table :=
  { name := "t", schema := some "s", temporary := false, ifNotExists := false,
    columns := [colA], constraints := [], ownedRelationships := [],
    inversedRelationships := [], manyToManyRelationships := [] }

/-- A primary-key constraint of table t on column a. -/
def pkA : Constraint :=
  { ctype := .primaryKey, primaryTable := { schemaName := some "s", name := "t" },
    primaryColumns := ["a"], columns := [], table := none, check := "", Where := "",
    onDelete := .noAction, onUpdate := .noAction }

/-- A unique-index constraint of table t on column a with a partial-index
predicate. -/
def uidxA : Constraint :=
  { ctype := .uniqueIndex, primaryTable := { schemaName := some "s", name := "t" },
    primaryColumns := ["a"], columns := [], table := none, check := "", Where := "a > 0",
    onDelete := .noAction, onUpdate := .noAction }

/-- A one-argument stable SQL function. -/
def fnNow : Function :=
  { name := "now_utc", args := [{ name := "x", argType := "INT" }],
    ftype := "TIMESTAMP", body := "SELECT 1", behaviour := .stable }

/-- The schema exercising every part of the claimed output order: banner,
CREATE SCHEMA, one function block, one table block with a primary key and
a standalone unique index. -/
def c1Schema : Schema :=
  { name := "s", ifNotExists := true, functions := [some fnNow],
    tables := [some { tblPlain with constraints := [pkA, uidxA] }] }

/-- A table whose last declared column is dynamic and which has no inline
constraints: the failing input of claim C2. -/
def c2Table : Table :=
  { tblPlain with schema := none, columns := [{ colA with notNull := false }, colBDyn] }

/-- A schema without Index or UniqueIndex constraints, used to instantiate
the version-independence part of claim C3. -/
def c3Schema : Schema :=
  { name := "s", ifNotExists := false, functions := [],
    tables := [some { tblPlain with constraints := [pkA] }] }

/-- A foreign-key constraint with ON DELETE CASCADE and ON UPDATE SET
NULL, the example of claim C4. -/
def c4FK : Constraint :=
  { ctype := .foreignKey, primaryTable := { schemaName := some "s", name := "t" },
    primaryColumns := ["x1", "x2"], columns := ["a"],
    table := some { schemaName := some "s", name := "t" }, check := "", Where := "",
    onDelete := .cascade, onUpdate := .setNull }

/-- The same foreign key with an emptied referenced-column list, violating
the rendering precondition. -/
def c4FKBad : Constraint := { c4FK with columns := [] }

/-- A table whose single column has no default-mode type representation:
the counterexample input of claim C5. -/
def c5Table : Table :=
  { name := "t", schema := none, temporary := false, ifNotExists := false,
    columns := [{ colA with goTypeDefault := "<nil>" }], constraints := [],
    ownedRelationships := [], inversedRelationships := [], manyToManyRelationships := [] }

/-- The author and book tables of the naming example of claim C5: a
OneToMany relationship from author to book without overrides. -/
def authorBookRel : Relationship :=
  { rtype := .oneToMany, ownerName := "", inversedName := "",
    ownerTable := { schemaName := none, name := "author" },
    inversedTable := { schemaName := none, name := "book" },
    ownerColumns := [], ownerForeignKey := none }

/-- The author table owning the OneToMany relationship to book. -/
def authorTable : Table :=
  { name := "author", schema := none, temporary := false, ifNotExists := false,
    columns := [{ colA with name := "id" }], constraints := [],
    ownedRelationships := [authorBookRel], inversedRelationships := [],
    manyToManyRelationships := [] }

/-- The book table on the inversed side of the relationship. -/
def bookTable : Table :=
  { name := "book", schema := none, temporary := false, ifNotExists := false,
    columns := [{ colA with name := "id" }], constraints := [],
    ownedRelationships := [], inversedRelationships := [authorBookRel],
    manyToManyRelationships := [] }

/-- A store of three leaf criteria nodes, the example input of claim C6. -/
def c6Store : CStore :=
  [{ operator := "" }, { operator := "" }, { operator := "" }]

/-- A schema with a table that has zero columns, one of the abort triggers
of claim C7. -/
def c7ZeroCols : Schema :=
  { name := "s", ifNotExists := false, functions := [],
    tables := [some { tblPlain with columns := [] }] }

/-- A schema with an empty name and one well-formed table: generation
succeeds, refuting the missing-schema-name abort of claim C7. -/
def c7NamelessOk : Schema :=
  { name := "", ifNotExists := false, functions := [], tables := [some tblPlain] }

/-- An owned relationship with an empty owner-column list and a
synthesized foreign key: the counterexample input of claim C8. -/
def c8Rel : Relationship :=
  { rtype := .oneToMany, ownerName := "", inversedName := "",
    ownerTable := { schemaName := some "s", name := "t" },
    inversedTable := { schemaName := some "s", name := "u" },
    ownerColumns := [], ownerForeignKey := some c4FK }

/-- A schema whose table list has a nil entry followed by a well-formed
table: the counterexample input of claim C10. -/
def c10Schema : Schema :=
  { name := "s", ifNotExists := false, functions := [],
    tables := [none, some tblPlain] }

end Inputs

namespace Pqtsql

open Pqt

/-- The version-independent tail of a standalone index statement: the
quoted constraint name, the qualified table, the column list, the
terminating semicolon and newline. -/
def indexTail (c : Constraint) : String :=
  "\"" ++ c.name ++ "\" ON " ++ c.primaryTable.FullName
    ++ " (" ++ ColumnsString c.primaryColumns ++ ");" ++ "\n"

/-- The version-independent core of a standalone unique-index statement,
before the optional WHERE clause and the terminating semicolon. -/
def uniqueIndexCore (c : Constraint) : String :=
  "\"" ++ c.name ++ "\" ON " ++ c.primaryTable.FullName
    ++ " (" ++ ColumnsString c.primaryColumns ++ ")"

/-- Whether a table entry carries any Index or UniqueIndex constraint, the
only constraints whose emission consults the configured version. -/
def hasIndexish : Option Table → Bool
  | none => false
  | some t =>
    t.constraints.any fun c =>
      c.ctype == ConstraintType.index || c.ctype == ConstraintType.uniqueIndex

/-- Whether any table of the schema emits a standalone index statement. -/
def schemaHasIndexStatements (s : Schema) : Bool :=
  s.tables.any hasIndexish

/-- A function entry that aborts generation: present but nameless. -/
def badFunction : Option Function → Bool
  | none => false
  | some f => f.name == ""

/-- A table entry that aborts generation per the amended claim C7: present
but nameless, or with zero columns, or carrying a constraint of a type
outside the known enumerated set in its working constraint list. -/
def badTable : Option Table → Bool
  | none => false
  | some t =>
    t.name == "" || t.columns.isEmpty
      || (appendRelationshipFKs t.constraints t.ownedRelationships).any
           (fun c => c.ctype.isUnknown)

/-- A schema containing any of the abort triggers of the amended claim C7. -/
def badSchema (s : Schema) : Bool :=
  s.functions.any badFunction || s.tables.any badTable

end Pqtsql

namespace Pqtsql

open Pqt

theorem genFunctions_toOption : ∀ fs : List (Option Function),
    (genFunctions fs).toOption = (mapOpt functionBlock fs).map joinAll
  | [] => rfl
  | f :: fs => by
    have ih := genFunctions_toOption fs
    cases hf : generateCreateFunction f with
    | error e =>
      simp [genFunctions, hf, mapOpt, functionBlock, Except.toOption]
    | ok t =>
      cases hrest : genFunctions fs with
      | error e =>
        rw [hrest] at ih
        cases hm : mapOpt functionBlock fs with
        | none =>
          simp [genFunctions, hf, hrest, mapOpt, functionBlock, hm, Except.toOption]
        | some l => rw [hm] at ih; simp [Except.toOption] at ih
      | ok rest =>
        rw [hrest] at ih
        cases hm : mapOpt functionBlock fs with
        | none => rw [hm] at ih; simp [Except.toOption] at ih
        | some l =>
          rw [hm] at ih
          have hr : rest = joinAll l := by simpa [Except.toOption] using ih
          simp [genFunctions, hf, hrest, mapOpt, functionBlock, hm,
            Except.toOption, joinAll, hr]

theorem genTables_toOption (ver : ℚ) : ∀ ts : List (Option Table),
    (genTables ver ts).toOption = (mapOpt (tableBlock ver) ts).map joinAll
  | [] => rfl
  | ot :: ts => by
    have ih := genTables_toOption ver ts
    cases ot with
    | none =>
      simp [genTables, generateCreateTable, mapOpt, tableBlock, Except.toOption]
    | some t =>
      cases ht : generateCreateTable (some t) with
      | error e =>
        simp [genTables, ht, mapOpt, tableBlock, Except.toOption]
      | ok txt =>
        cases hrest : genTables ver ts with
        | error e =>
          rw [hrest] at ih
          cases hm : mapOpt (tableBlock ver) ts with
          | none =>
            simp [genTables, ht, hrest, mapOpt, tableBlock, hm, Except.toOption]
          | some l => rw [hm] at ih; simp [Except.toOption] at ih
        | ok rest =>
          rw [hrest] at ih
          cases hm : mapOpt (tableBlock ver) ts with
          | none => rw [hm] at ih; simp [Except.toOption] at ih
          | some l =>
            rw [hm] at ih
            have hr : rest = joinAll l := by simpa [Except.toOption] using ih
            simp [genTables, ht, hrest, mapOpt, tableBlock, hm,
              Except.toOption, joinAll, hr]

end Pqtsql

open Pqt Pqtsql Gogen GenCode Inputs

/-- Claim C1: for every schema, the DDL emitter produces output in exactly
this order: the fixed comment banner; then, only when the schema name is
non-empty, a CREATE SCHEMA statement (with IF NOT EXISTS when the flag is
set); then one CREATE OR REPLACE FUNCTION block per function in
declaration order; then one CREATE TABLE block per table in declaration
order, each immediately followed by that table's standalone Index and
UniqueIndex statements in constraint declaration order and then a blank
separator line. Stated as refinement: every successful run of the
buffer-threading generate equals the compositional assembly
specOrderedOutput of exactly those blocks in exactly that order. -/
theorem c1_ddl_output_order (ver : ℚ) (s : Schema) (out : String)
    (h : generate ver s = .ok out) : specOrderedOutput ver s = some out := by
  unfold generate at h
  cases hf : genFunctions s.functions with
  | error e => rw [hf] at h; simp at h
  | ok fs =>
    cases ht : genTables ver s.tables with
    | error e => rw [hf, ht] at h; simp at h
    | ok ts =>
      rw [hf, ht] at h
      simp only [Except.ok.injEq] at h
      have h1 := genFunctions_toOption s.functions
      rw [hf] at h1
      simp only [Except.toOption] at h1
      have h2 := genTables_toOption ver s.tables
      rw [ht] at h2
      simp only [Except.toOption] at h2
      obtain ⟨fb, hfb, hjf⟩ := Option.map_eq_some'.mp h1.symm
      obtain ⟨tb, htb, hjt⟩ := Option.map_eq_some'.mp h2.symm
      unfold specOrderedOutput
      rw [hfb, htb]
      dsimp only
      rw [hjf, hjt, h]

set_option maxRecDepth 8192 in
/-- Witness for claim C1 at a concrete schema exercising the banner, the
CREATE SCHEMA clause with IF NOT EXISTS, one function block, and one table
block with an inline primary key and a standalone unique index. -/
theorem c1_ddl_output_order_witness :
    specOrderedOutput 10 c1Schema
      = some "-- do not modify, generated by pqt\n\nCREATE SCHEMA IF NOT EXISTS s; \n\nCREATE OR REPLACE FUNCTION now_utc(x INT) RETURNS TIMESTAMP\n\tAS 'SELECT 1'\n\tLANGUAGE SQL\n\tSTABLE;\n\nCREATE TABLE s.t (\n\ta INTEGER NOT NULL,\n\n\tCONSTRAINT \"t_a_pkey\" PRIMARY KEY (a)\n);\nCREATE UNIQUE INDEX IF NOT EXISTS \"t_a_ukey\" ON s.t (a) WHERE a > 0;\n\n" :=
  c1_ddl_output_order 10 c1Schema _ rfl

/-- Claim C2 (code bug): on a table whose last declared column is dynamic
and which has no inline constraints, the emitter still places a trailing
comma after the final emitted column line, because the comma test compares
the declared index of the column with the length of the full declared
column list. Evaluating the embedded generateCreateTable at such a table
shows the dangling comma immediately before the closing parenthesis, where
the claim (and spec section 4.3) requires no comma. -/
theorem c2_trailing_comma_after_last_dynamic :
    generateCreateTable (some c2Table) = .ok "CREATE TABLE t (\n\ta INTEGER,\n);\n" := rfl

/-- Counterexample to claim C10 as stated: a schema whose table list holds
a nil entry followed by a well-formed table does not continue generating;
the run aborts (the table loop of generate dereferences the nil pointer to
range over its constraints) and produces no output. -/
theorem c10_nil_table_not_skipped_cex :
    generate 10 c10Schema = .error GenErr.nilTable := rfl

/-- Claim C10 as amended: generateCreateFunction and generateCreateTable
both return success without emitting text for a nil entry; a nil function
entry is therefore silently skipped and generation of the rest of the
schema continues, but a nil table entry aborts the run right after the
nil check, when generate ranges over the constraints of the nil table. -/
theorem c10_nil_entries :
    (generateCreateFunction none = .ok "")
    ∧ (generateCreateTable (none : Option Pqt.Table) = .ok "")
    ∧ (∀ fs : List (Option Pqt.Function), genFunctions (none :: fs) = genFunctions fs)
    ∧ (∀ (ver : ℚ) (ts : List (Option Pqt.Table)),
        genTables ver (none :: ts) = .error GenErr.nilTable) := by
  refine ⟨rfl, rfl, ?_, ?_⟩
  · intro fs
    cases h : genFunctions fs <;> simp [genFunctions, generateCreateFunction, h]
  · intro ver ts
    rfl

/-- Counterexample to claim C8 as stated: an owned relationship with an
empty owner-column list (not more than one owner column) whose synthesized
foreign key is present is still appended to the working constraint list,
because the source skips only relationships with exactly one owner
column. -/
theorem c8_zero_column_relationship_cex :
    c8Rel.ownerColumns.length = 0
      ∧ (appendRelationshipFKs [] [c8Rel]).length = 1 := ⟨rfl, rfl⟩

/-- Claim C8 as amended: during one table's DDL generation the working
constraint list is exactly the declared constraint list followed by the
synthesized foreign keys of the owned relationships that do not have
exactly one owner column and do carry a synthesized key, in relationship
declaration order; relationships with exactly one owner column (and those
without a synthesized key) contribute nothing. The shared model itself is
untouched: the working list extends the declared list, which stays its
prefix unchanged. -/
theorem c8_synthesized_fk_append (cs : List Pqt.Constraint) (rs : List Pqt.Relationship) :
    appendRelationshipFKs cs rs
      = cs ++ rs.filterMap
          (fun r => if r.ownerColumns.length = 1 then none else r.ownerForeignKey) := by
  induction rs generalizing cs with
  | nil => simp [appendRelationshipFKs]
  | cons r rest ih =>
    by_cases h1 : r.ownerColumns.length = 1
    · simp [appendRelationshipFKs, h1, ih]
    · cases hfk : r.ownerForeignKey with
      | none => simp [appendRelationshipFKs, h1, hfk, ih]
      | some fk => simp [appendRelationshipFKs, h1, hfk, ih]

/-- Claim C4: a foreign-key constraint with non-empty local and referenced
column lists and a present referenced table renders as the CONSTRAINT text
with FOREIGN KEY, REFERENCES, and the ON DELETE and ON UPDATE clauses,
each clause appended exactly when its action is set (the clause text is
empty exactly for the unset action); when either column list is empty or
the referenced table is missing, rendering fails and yields no text. -/
theorem c4_foreign_key_rendering :
    (∀ (c : Pqt.Constraint) (rt : Pqt.TableRef), c.table = some rt →
       c.primaryColumns ≠ [] → c.columns ≠ [] →
       foreignKeyConstraintQuery c = .ok
         ("CONSTRAINT \"" ++ c.name ++ "\" FOREIGN KEY (" ++ JoinColumns c.primaryColumns ", "
           ++ ") REFERENCES " ++ rt.FullName ++ " (" ++ JoinColumns c.columns ", " ++ ")"
           ++ onDeleteText c.onDelete ++ onUpdateText c.onUpdate))
    ∧ (∀ a : Pqt.RefAction,
        (onDeleteText a = "" ↔ a = .noAction) ∧ (onUpdateText a = "" ↔ a = .noAction))
    ∧ (∀ c : Pqt.Constraint, c.primaryColumns = [] ∨ c.columns = [] ∨ c.table = none →
        (foreignKeyConstraintQuery c).toOption = none) := by
  refine ⟨?_, ?_, ?_⟩
  · intro c rt htab hpc hc
    have hpc0 : c.primaryColumns.length ≠ 0 :=
      Nat.pos_iff_ne_zero.mp (List.length_pos.mpr hpc)
    have hc0 : c.columns.length ≠ 0 :=
      Nat.pos_iff_ne_zero.mp (List.length_pos.mpr hc)
    simp [foreignKeyConstraintQuery, hpc0, hc0, htab]
  · intro a
    cases a <;> simp [onDeleteText, onUpdateText]
  · intro c h
    rcases h with h | h | h
    · simp [foreignKeyConstraintQuery, h, Except.toOption]
    · by_cases hpc : c.primaryColumns.length = 0 <;>
        simp [foreignKeyConstraintQuery, hpc, h, Except.toOption]
    · by_cases hpc : c.primaryColumns.length = 0 <;>
        by_cases hc : c.columns.length = 0 <;>
          simp [foreignKeyConstraintQuery, hpc, hc, h, Except.toOption]

/-- Witness for claim C4: the example of the claim, a composite foreign
key with ON DELETE CASCADE and ON UPDATE SET NULL renders both clauses in
that order, and emptying its referenced-column list makes rendering fail. -/
theorem c4_foreign_key_rendering_witness :
    foreignKeyConstraintQuery c4FK
        = .ok "CONSTRAINT \"t_x1_x2_fkey\" FOREIGN KEY (x1, x2) REFERENCES s.t (a) ON DELETE CASCADE ON UPDATE SET NULL"
      ∧ (foreignKeyConstraintQuery c4FKBad).toOption = none := by
  constructor
  · have h := c4_foreign_key_rendering.1 c4FK { schemaName := some "s", name := "t" }
      rfl (by decide) (by decide)
    simpa using h
  · exact c4_foreign_key_rendering.2.2 c4FKBad (Or.inr (Or.inl rfl))

theorem indexStatements_eq_empty (ver : ℚ) : ∀ cs : List Pqt.Constraint,
    (cs.any fun c =>
      c.ctype == ConstraintType.index || c.ctype == ConstraintType.uniqueIndex) = false →
    indexStatements ver cs = ""
  | [] => fun _ => rfl
  | c :: rest => fun h => by
    rw [List.any_cons, Bool.or_eq_false_iff] at h
    obtain ⟨h1, h2⟩ := h
    have ih := indexStatements_eq_empty ver rest h2
    rw [Bool.or_eq_false_iff] at h1
    obtain ⟨hi, hu⟩ := h1
    cases hct : c.ctype <;> simp_all [indexStatements]

theorem genTables_version_eq (v1 v2 : ℚ) : ∀ ts : List (Option Pqt.Table),
    ts.any hasIndexish = false → genTables v1 ts = genTables v2 ts
  | [] => fun _ => rfl
  | ot :: rest => fun h => by
    rw [List.any_cons, Bool.or_eq_false_iff] at h
    obtain ⟨h1, h2⟩ := h
    have ih := genTables_version_eq v1 v2 rest h2
    cases ot with
    | none => rfl
    | some t =>
      unfold genTables
      cases hg : generateCreateTable (some t) with
      | error e => rfl
      | ok txt =>
        dsimp only
        have hidx1 : indexStatements v1 t.constraints = "" :=
          indexStatements_eq_empty v1 t.constraints (by simpa [hasIndexish] using h1)
        have hidx2 : indexStatements v2 t.constraints = "" :=
          indexStatements_eq_empty v2 t.constraints (by simpa [hasIndexish] using h1)
        rw [ih, hidx1, hidx2]

/-- Claim C3: the standalone index statement of an Index constraint and of
a UniqueIndex constraint carries the IF NOT EXISTS guard, in the fixed
position after CREATE INDEX or CREATE UNIQUE INDEX, exactly when the
configured version is at least 9.5; the rest of the statement does not
depend on the version; a UniqueIndex with a non-empty predicate gets a
WHERE clause right before the terminating semicolon; and on a schema with
no Index or UniqueIndex constraint the whole emitter output is independent
of the version. -/
theorem c3_version_gating :
    (∀ (c : Pqt.Constraint) (ver : ℚ), indexConstraintQuery c ver
        = "CREATE INDEX " ++ (if ver ≥ 9.5 then "IF NOT EXISTS " else "") ++ indexTail c)
    ∧ (∀ (c : Pqt.Constraint) (ver : ℚ), uniqueIndexConstraintQuery c ver
        = "CREATE UNIQUE INDEX " ++ (if ver ≥ 9.5 then "IF NOT EXISTS " else "")
            ++ uniqueIndexCore c
            ++ (if c.Where = "" then "" else " WHERE " ++ c.Where) ++ ";\n")
    ∧ (∀ (ver1 ver2 : ℚ) (s : Pqt.Schema), schemaHasIndexStatements s = false →
        generate ver1 s = generate ver2 s) := by
  have hv : ver95 = (9.5 : ℚ) := by norm_num [ver95]
  refine ⟨?_, ?_, ?_⟩
  · intro c ver
    unfold indexConstraintQuery indexTail
    rw [hv]
    by_cases h : ver ≥ (9.5 : ℚ)
    · simp only [if_pos h]
      simp only [← String.append_assoc]
      rfl
    · simp only [if_neg h]
      simp only [← String.append_assoc]
      rfl
  · intro c ver
    unfold uniqueIndexConstraintQuery uniqueIndexCore
    rw [hv]
    have hite : (if c.Where ≠ "" then " WHERE " ++ c.Where else "")
        = (if c.Where = "" then "" else " WHERE " ++ c.Where) := by
      by_cases hw : c.Where = "" <;> simp [hw]
    rw [hite]
    by_cases h : ver ≥ (9.5 : ℚ)
    · simp only [if_pos h]
      simp only [← String.append_assoc]
      rfl
    · simp only [if_neg h]
      simp only [← String.append_assoc]
      rfl
  · intro v1 v2 s h
    unfold generate
    rw [genTables_version_eq v1 v2 s.tables
      (by simpa [schemaHasIndexStatements] using h)]

/-- Witness for claim C3: a schema with only a primary-key constraint
satisfies the no-index-statement hypothesis and generates identically at
versions 9 and 10. -/
theorem c3_version_gating_witness :
    schemaHasIndexStatements c3Schema = false
      ∧ generate 9 c3Schema = generate 10 c3Schema :=
  ⟨rfl, c3_version_gating.2.2 9 10 c3Schema rfl⟩

theorem genFunctions_none_of_bad : ∀ fs : List (Option Pqt.Function),
    fs.any badFunction = true → (genFunctions fs).toOption = none
  | [] => fun h => by simp at h
  | f :: fs => fun h => by
    rw [List.any_cons, Bool.or_eq_true] at h
    rcases h with h1 | h2
    · cases f with
      | none => simp [badFunction] at h1
      | some f' =>
        have hname : f'.name = "" := by simpa [badFunction] using h1
        simp [genFunctions, generateCreateFunction, hname, Except.toOption]
    · have ih := genFunctions_none_of_bad fs h2
      cases hg : generateCreateFunction f with
      | error e => simp [genFunctions, hg, Except.toOption]
      | ok t =>
        cases hr : genFunctions fs with
        | error e => simp [genFunctions, hg, hr, Except.toOption]
        | ok rest => rw [hr] at ih; simp [Except.toOption] at ih

theorem constraintsText_none_of_unknown (nb : Nat) : ∀ (i : Nat) (cs : List Pqt.Constraint),
    (cs.any fun c => c.ctype.isUnknown) = true →
    (constraintsText nb i cs).toOption = none
  | i, [] => fun h => by simp at h
  | i, c :: rest => fun h => by
    rw [List.any_cons, Bool.or_eq_true] at h
    by_cases hskip : c.ctype = ConstraintType.index ∨ c.ctype = ConstraintType.uniqueIndex
    · have h2 : (rest.any fun c => c.ctype.isUnknown) = true := by
        rcases h with h1 | h2
        · rcases hskip with hs | hs <;> simp [hs, ConstraintType.isUnknown] at h1
        · exact h2
      have ih := constraintsText_none_of_unknown nb i rest h2
      simpa [constraintsText, hskip] using ih
    · rcases h with h1 | h2
      · have hc : ∃ tag, c.ctype = ConstraintType.unknown tag := by
          cases hct : c.ctype <;> simp_all [ConstraintType.isUnknown]
        obtain ⟨tag, htag⟩ := hc
        simp [constraintsText, hskip, htag, generateConstraint, Except.toOption]
      · have ih := constraintsText_none_of_unknown nb (i + 1) rest h2
        cases hg : generateConstraint c with
        | error e => simp [constraintsText, hskip, hg, Except.toOption]
        | ok txt =>
          cases hr : constraintsText nb (i + 1) rest with
          | error e => simp [constraintsText, hskip, hg, hr, Except.toOption]
          | ok tail => rw [hr] at ih; simp [Except.toOption] at ih

theorem generateCreateTable_none_of_bad (t : Pqt.Table) (h : badTable (some t) = true) :
    (generateCreateTable (some t)).toOption = none := by
  unfold badTable at h
  rw [Bool.or_eq_true, Bool.or_eq_true] at h
  by_cases hn : t.name = ""
  · simp [generateCreateTable, hn, Except.toOption]
  · by_cases hc : t.columns.length = 0
    · simp [generateCreateTable, hn, hc, Except.toOption]
    · have hu : ((appendRelationshipFKs t.constraints t.ownedRelationships).any
          fun c => c.ctype.isUnknown) = true := by
        rcases h with (h1 | h1) | h1
        · exact absurd (by simpa using h1) hn
        · refine absurd ?_ hc
          rw [List.isEmpty_iff] at h1
          simp [h1]
        · exact h1
      have hct := constraintsText_none_of_unknown
        (CountOf (appendRelationshipFKs t.constraints t.ownedRelationships)
          [.primaryKey, .check, .unique, .foreignKey, .exclusion])
        0 (appendRelationshipFKs t.constraints t.ownedRelationships) hu
      cases hcc : constraintsText
          (CountOf (appendRelationshipFKs t.constraints t.ownedRelationships)
            [.primaryKey, .check, .unique, .foreignKey, .exclusion])
          0 (appendRelationshipFKs t.constraints t.ownedRelationships) with
      | error e => simp [generateCreateTable, hn, hc, hcc, Except.toOption]
      | ok x => rw [hcc] at hct; simp [Except.toOption] at hct

theorem genTables_none_of_bad (ver : ℚ) : ∀ ts : List (Option Pqt.Table),
    ts.any badTable = true → (genTables ver ts).toOption = none
  | [] => fun h => by simp at h
  | ot :: rest => fun h => by
    cases ot with
    | none => simp [genTables, generateCreateTable, Except.toOption]
    | some t =>
      rw [List.any_cons, Bool.or_eq_true] at h
      rcases h with h1 | h2
      · have := generateCreateTable_none_of_bad t h1
        cases hg : generateCreateTable (some t) with
        | error e => simp [genTables, hg, Except.toOption]
        | ok txt => rw [hg] at this; simp [Except.toOption] at this
      · have ih := genTables_none_of_bad ver rest h2
        cases hg : generateCreateTable (some t) with
        | error e => simp [genTables, hg, Except.toOption]
        | ok txt =>
          cases hr : genTables ver rest with
          | error e => simp [genTables, hg, hr, Except.toOption]
          | ok tail => rw [hr] at ih; simp [Except.toOption] at ih

/-- Claim C7 as amended: generation aborts with an error and returns no
output bytes whenever a present function entry has no name, or a present
table entry has no name, has zero columns, or carries a constraint whose
type is outside the known enumerated set in its working constraint list.
An empty schema name, by contrast, is not an abort trigger: the CREATE
SCHEMA statement is simply omitted (see the counterexample). -/
theorem c7_generation_aborts (ver : ℚ) (s : Pqt.Schema) (h : badSchema s = true) :
    Generate ver s = none := by
  unfold badSchema at h
  rw [Bool.or_eq_true] at h
  unfold Generate generate
  rcases h with hf | ht
  · have hfo := genFunctions_none_of_bad s.functions hf
    cases hg : genFunctions s.functions with
    | error e => simp [Except.toOption]
    | ok fs => rw [hg] at hfo; simp [Except.toOption] at hfo
  · have hto := genTables_none_of_bad ver s.tables ht
    cases hg : genFunctions s.functions with
    | error e => simp [Except.toOption]
    | ok fs =>
      cases hgt : genTables ver s.tables with
      | error e => simp [Except.toOption]
      | ok ts => rw [hgt] at hto; simp [Except.toOption] at hto

/-- Witness for claim C7: a schema containing a table with zero columns
trips the abort predicate, and generation returns no output. -/
theorem c7_generation_aborts_witness :
    badSchema c7ZeroCols = true ∧ Generate 10 c7ZeroCols = none :=
  ⟨rfl, c7_generation_aborts 10 c7ZeroCols rfl⟩

/-- Counterexample to claim C7 as stated: a schema whose name is missing
(empty) but whose content is well formed does not abort; generation
succeeds and returns output. -/
theorem c7_nameless_schema_succeeds_cex :
    c7NamelessOk.name = "" ∧ (Generate 10 c7NamelessOk).isSome = true := ⟨rfl, rfl⟩

namespace GenCode

theorem modifyAt_get?_ne : ∀ (s : CStore) (i j : Nat) (f : CriteriaNode → CriteriaNode),
    i ≠ j → (modifyAt s i f).get? j = s.get? j
  | [], _, _, _ => fun _ => by simp [modifyAt]
  | n :: rest, 0, j, f => fun h => by
    cases j with
    | zero => exact absurd rfl h
    | succ j => simp [modifyAt]
  | n :: rest, i + 1, j, f => fun h => by
    cases j with
    | zero => simp [modifyAt]
    | succ j =>
      simp only [modifyAt, List.get?_cons_succ]
      exact modifyAt_get?_ne rest i j f (fun e => h (by rw [e]))

theorem modifyAt_get?_eq : ∀ (s : CStore) (i : Nat) (f : CriteriaNode → CriteriaNode),
    (modifyAt s i f).get? i = (s.get? i).map f
  | [], i, f => by simp [modifyAt]
  | n :: rest, 0, f => by simp [modifyAt]
  | n :: rest, i + 1, f => by
    simp only [modifyAt, List.get?_cons_succ]
    exact modifyAt_get?_eq rest i f

theorem linkLoop_get?_not_mem (p : Nat) : ∀ (ops : List Nat) (s : CStore) (j : Nat),
    j ∉ ops → (linkLoop p s ops).get? j = s.get? j
  | [], s, j => fun _ => rfl
  | [i], s, j => fun h => by
    have hij : i ≠ j := fun e => h (by simp [e])
    simp only [linkLoop, setParent]
    exact modifyAt_get?_ne s i j _ hij
  | i :: k :: rest, s, j => fun h => by
    have hj1 : j ∉ k :: rest := fun hm => h (List.mem_cons_of_mem i hm)
    have hij : i ≠ j := fun e => h (by simp [e])
    have ih := linkLoop_get?_not_mem p (k :: rest)
      (setParent (setSibling s i (some k)) i (some p)) j hj1
    simp only [linkLoop] at *
    rw [ih]
    unfold setParent setSibling
    rw [modifyAt_get?_ne _ i j _ hij, modifyAt_get?_ne _ i j _ hij]

end GenCode

namespace GenCode

theorem linkLoop_get?_pair (p : Nat) : ∀ (ops : List Nat) (s : CStore), ops.Nodup →
    ∀ (k : Nat) (h1 : k < ops.length) (h2 : k + 1 < ops.length),
    (linkLoop p s ops).get? (ops.get ⟨k, h1⟩)
      = (s.get? (ops.get ⟨k, h1⟩)).map
          (fun n => { n with sibling := some (ops.get ⟨k + 1, h2⟩), parent := some p })
  | [], _ => fun _ k h1 _ => absurd h1 (by simp)
  | [i], _ => fun _ k _ h2 => by simp at h2
  | i :: k' :: rest, s => fun hnd k0 h1 h2 => by
    have hi : i ∉ k' :: rest := (List.nodup_cons.mp hnd).1
    have hnd2 : (k' :: rest).Nodup := (List.nodup_cons.mp hnd).2
    cases k0 with
    | zero =>
      show (linkLoop p (setParent (setSibling s i (some k')) i (some p)) (k' :: rest)).get? i
        = (s.get? i).map (fun n => { n with sibling := some k', parent := some p })
      rw [linkLoop_get?_not_mem p (k' :: rest) _ i hi]
      unfold setParent setSibling
      rw [modifyAt_get?_eq, modifyAt_get?_eq]
      cases s.get? i <;> rfl
    | succ k1 =>
      have h1' : k1 < (k' :: rest).length := by simpa using h1
      have h2' : k1 + 1 < (k' :: rest).length := by simpa using h2
      have ih := linkLoop_get?_pair p (k' :: rest)
        (setParent (setSibling s i (some k')) i (some p)) hnd2 k1 h1' h2'
      have hmem : (k' :: rest).get ⟨k1, h1'⟩ ∈ k' :: rest := (k' :: rest).get_mem _ _
      have hnei : i ≠ (k' :: rest).get ⟨k1, h1'⟩ := fun e => hi (e ▸ hmem)
      have hs2 : (setParent (setSibling s i (some k')) i (some p)).get?
            ((k' :: rest).get ⟨k1, h1'⟩) = s.get? ((k' :: rest).get ⟨k1, h1'⟩) := by
        unfold setParent setSibling
        rw [modifyAt_get?_ne _ _ _ _ hnei, modifyAt_get?_ne _ _ _ _ hnei]
      rw [hs2] at ih
      exact ih

theorem linkLoop_get?_last (p : Nat) : ∀ (ops : List Nat) (s : CStore), ops.Nodup →
    ∀ h : ops ≠ [],
    (linkLoop p s ops).get? (ops.getLast h)
      = (s.get? (ops.getLast h)).map (fun n => { n with parent := some p })
  | [], _ => fun _ h => absurd rfl h
  | [i], s => fun _ _ => by
    show (setParent s i (some p)).get? i
      = (s.get? i).map (fun n => { n with parent := some p })
    unfold setParent
    rw [modifyAt_get?_eq]
  | i :: k' :: rest, s => fun hnd _ => by
    have hi : i ∉ k' :: rest := (List.nodup_cons.mp hnd).1
    have hnd2 : (k' :: rest).Nodup := (List.nodup_cons.mp hnd).2
    have ih := linkLoop_get?_last p (k' :: rest)
      (setParent (setSibling s i (some k')) i (some p)) hnd2 (List.cons_ne_nil k' rest)
    have hlmem : (k' :: rest).getLast (List.cons_ne_nil k' rest) ∈ k' :: rest :=
      List.getLast_mem _
    have hnei : i ≠ (k' :: rest).getLast (List.cons_ne_nil k' rest) :=
      fun e => hi (e ▸ hlmem)
    have hs2 : (setParent (setSibling s i (some k')) i (some p)).get?
          ((k' :: rest).getLast (List.cons_ne_nil k' rest))
        = s.get? ((k' :: rest).getLast (List.cons_ne_nil k' rest)) := by
      unfold setParent setSibling
      rw [modifyAt_get?_ne _ _ _ _ hnei, modifyAt_get?_ne _ _ _ _ hnei]
    rw [hs2] at ih
    show (linkLoop p (setParent (setSibling s i (some k')) i (some p)) (k' :: rest)).get?
        ((i :: k' :: rest).getLast (by simp))
      = (s.get? ((i :: k' :: rest).getLast (by simp))).map (fun n => { n with parent := some p })
    rw [List.getLast_cons (List.cons_ne_nil k' rest)]
    exact ih

end GenCode

/-- Claim C6: the generated criteria-combinator constructor, applied to an
operator and a non-empty list of distinct allocated operand nodes (the
last of which has no sibling yet), returns a fresh node holding the
operator whose child is the first operand; it links each operand's sibling
pointer to the next operand, leaves the last operand's sibling unset, and
sets every operand's parent pointer to the new node. -/
theorem c6_operand_linking (op : String) (ops : List Nat) (s : CStore)
    (hne : ops ≠ []) (hnd : ops.Nodup) (hbound : ∀ o ∈ ops, o < s.length)
    (hlast : (nodeAt s (ops.getLast hne)).sibling = none) :
    OperandSpec op ops s := by
  obtain ⟨o, rest, rfl⟩ : ∃ o rest, ops = o :: rest := by
    cases ops with
    | nil => exact absurd rfl hne
    | cons a l => exact ⟨a, l, rfl⟩
  have hpnot : s.length ∉ o :: rest := fun hm => absurd (hbound s.length hm) (by omega)
  have hs1p : (s ++ [({ operator := op, child := some o } : CriteriaNode)]).get? s.length
      = some { operator := op, child := some o } :=
    List.get?_concat_length s _
  have hs1mem : ∀ o' ∈ o :: rest,
      (s ++ [({ operator := op, child := some o } : CriteriaNode)]).get? o' = s.get? o' :=
    fun o' hm => List.get?_append (hbound o' hm)
  refine ⟨?_, ?_, ?_, ?_⟩
  · show (nodeAt (linkLoop s.length
        (s ++ [{ operator := op, child := some o }]) (o :: rest)) s.length) = _
    unfold nodeAt
    rw [linkLoop_get?_not_mem s.length (o :: rest) _ s.length hpnot, hs1p]
    rfl
  · intro k h1 h2
    have hpair := linkLoop_get?_pair s.length (o :: rest)
      (s ++ [{ operator := op, child := some o }]) hnd k h1 h2
    have hmm := (o :: rest).get_mem k h1
    rw [hs1mem _ hmm] at hpair
    have hsome := List.get?_eq_get (hbound _ hmm)
    show (nodeAt (linkLoop s.length
        (s ++ [{ operator := op, child := some o }]) (o :: rest))
        ((o :: rest).get ⟨k, h1⟩)).sibling = _
    unfold nodeAt
    rw [hpair, hsome]
    rfl
  · intro h
    have hl := linkLoop_get?_last s.length (o :: rest)
      (s ++ [{ operator := op, child := some o }]) hnd h
    have hmm := List.getLast_mem (l := o :: rest) h
    rw [hs1mem _ hmm] at hl
    have hsome := List.get?_eq_get (hbound _ hmm)
    show (nodeAt (linkLoop s.length
        (s ++ [{ operator := op, child := some o }]) (o :: rest))
        ((o :: rest).getLast h)).sibling = none
    unfold nodeAt
    rw [hl, hsome]
    unfold nodeAt at hlast
    rw [hsome] at hlast
    simpa using hlast
  · intro o' hmem
    obtain ⟨⟨k, hk⟩, hget⟩ := List.mem_iff_get.mp hmem
    by_cases hk2 : k + 1 < (o :: rest).length
    · have hpair := linkLoop_get?_pair s.length (o :: rest)
        (s ++ [{ operator := op, child := some o }]) hnd k hk hk2
      have hmm := (o :: rest).get_mem k hk
      rw [hs1mem _ hmm] at hpair
      have hsome := List.get?_eq_get (hbound _ hmm)
      show (nodeAt (linkLoop s.length
          (s ++ [{ operator := op, child := some o }]) (o :: rest)) o').parent = _
      rw [← hget]
      unfold nodeAt
      rw [hpair, hsome]
      rfl
    · have hk3 : k = (o :: rest).length - 1 := by
        simp only [List.length_cons] at hk hk2 ⊢
        omega
      subst hk3
      have hlaste : (o :: rest).getLast hne
          = (o :: rest).get ⟨(o :: rest).length - 1, hk⟩ := List.getLast_eq_get _ _
      have hl := linkLoop_get?_last s.length (o :: rest)
        (s ++ [{ operator := op, child := some o }]) hnd hne
      rw [hlaste] at hl
      have hmm := (o :: rest).get_mem ((o :: rest).length - 1) hk
      rw [hs1mem _ hmm] at hl
      have hsome := List.get?_eq_get (hbound _ hmm)
      show (nodeAt (linkLoop s.length
          (s ++ [{ operator := op, child := some o }]) (o :: rest)) o').parent = _
      rw [← hget]
      unfold nodeAt
      rw [hl, hsome]
      rfl

/-- Witness for claim C6: combining three distinct fresh leaf nodes with
an AND operator satisfies every hypothesis, and the claimed linking holds:
child is leaf 0, leaf 0 links to leaf 1, leaf 1 to leaf 2, leaf 2 keeps no
sibling, and all three parents point at the new node. -/
theorem c6_operand_linking_witness :
    (([0, 1, 2] : List Nat) ≠ [] ∧ ([0, 1, 2] : List Nat).Nodup
        ∧ (∀ o ∈ ([0, 1, 2] : List Nat), o < c6Store.length)
        ∧ (nodeAt c6Store (([0, 1, 2] : List Nat).getLast (by simp))).sibling = none)
    ∧ OperandSpec "AND" [0, 1, 2] c6Store := by
  refine ⟨⟨by simp, by decide, by decide, rfl⟩, ?_⟩
  exact c6_operand_linking "AND" [0, 1, 2] c6Store (by simp) (by decide) (by decide) rfl

/-- Counterexample to claim C5 as stated: a column whose type has no
default-mode representation (the source compares the rendered type against
the nil marker and skips the field) produces no entity field at all, so an
entity does not get one field per declared column. -/
theorem c5_nil_type_column_cex :
    c5Table.columns.length = 1 ∧ entityPropertiesGenerator c5Table = [] := ⟨rfl, rfl⟩

/-- Claim C5 as amended: the entity fields are exactly, in order, one
field per column having a default-mode type representation, in declared
order; then the owned-relationship fields, then the inversed-relationship
fields, then the many-to-many fields, each group in schema order, with
single-valued fields named after the other table, collection-valued fields
named after the other table with the collection suffix, and an explicit
override name replacing the corresponding default on either side. -/
theorem c5_entity_field_order (t : Pqt.Table) :
    entityPropertiesGenerator t = entityFieldsSpec t := rfl

theorem chanRun_some : ∀ (sch : List Bool) (pend acc res : List Gogen.structField),
    chanRun sch pend acc = some res → res = acc.reverse ++ pend
  | sch, [], acc, res => fun h => by
    simp only [chanRun, Option.some.injEq] at h
    simp [← h]
  | [], x :: pend, acc, res => fun h => by simp [chanRun] at h
  | true :: sch, x :: pend, acc, res => fun h => by
    have ih := chanRun_some sch pend (x :: acc) res h
    simpa [List.append_assoc] using ih
  | false :: sch, x :: pend, acc, res => fun h =>
    chanRun_some sch (x :: pend) acc res h

/-- Claim C9: generation is deterministic. The only concurrency-shaped
construct of the engine, the channel handoff between the entity-field
producer goroutine and its consumer, yields the same field sequence under
every pair of completing schedules; and two runs of the DDL emitter on the
same schema and version produce byte-identical output. -/
theorem c9_determinism :
    (∀ (t : Pqt.Table) (sch1 sch2 : List Bool) (r1 r2 : List Gogen.structField),
        chanRun sch1 (entityPropertiesGenerator t) [] = some r1 →
        chanRun sch2 (entityPropertiesGenerator t) [] = some r2 → r1 = r2)
    ∧ (∀ (ver : ℚ) (s : Pqt.Schema) (out1 out2 : String),
        generate ver s = .ok out1 → generate ver s = .ok out2 → out1 = out2) := by
  constructor
  · intro t sch1 sch2 r1 r2 h1 h2
    have e1 := chanRun_some sch1 _ _ _ h1
    have e2 := chanRun_some sch2 _ _ _ h2
    rw [e1, e2]
  · intro ver s out1 out2 h1 h2
    rw [h1] at h2
    exact Except.ok.inj h2

/-- Witness for claim C9: the author and book tables of the specification
example, consumed under different completing schedules (with and without
stalls), yield the same field sequences; the sequences also exhibit the
claimed relationship naming, a collection-valued Books field on the author
entity and a single-valued Author field on the book entity. -/
theorem c9_determinism_witness :
    ([{ name := "Id", typeStr := "int32" },
      { name := "Books", typeStr := "[]*BookEntity" }]
        = ([{ name := "Id", typeStr := "int32" },
            { name := "Books", typeStr := "[]*BookEntity" }] : List Gogen.structField))
    ∧ ([{ name := "Id", typeStr := "int32" },
        { name := "Author", typeStr := "*AuthorEntity" }]
        = ([{ name := "Id", typeStr := "int32" },
            { name := "Author", typeStr := "*AuthorEntity" }] : List Gogen.structField)) :=
  ⟨c9_determinism.1 authorTable [true, true] [false, true, false, true] _ _ rfl rfl,
   c9_determinism.1 bookTable [true, true] [true, false, true] _ _ rfl rfl⟩
